import Mathlib

/-!
Shallow embedding of the effect-jmap request/response core
(src/core/JMAPClient.ts, src/core/Types.ts, src/core/Errors.ts and the
response-extraction utility), together with theorems about the batching,
session-caching and error-handling behaviour.

Modelling conventions:
* JSON values are the inductive `Json`; JavaScript numbers are modelled as
  integers (no claim depends on numeric payloads).
* The HTTP layer is an oracle `World.attempts : Nat -> Attempt` consumed in
  order; one `Attempt` is either a transport failure (which the client
  retries, `Effect.retry(retrySchedule)`) or a received reply.  A reply body
  is represented by its read/parse outcome (`BodyOutcome`): unreadable body,
  body that is not valid JSON, or the parsed `Json` value.
* `Date.now()` is `World.now` (milliseconds), constant during one client
  operation.
* The mutable closure variable `sessionState` of `makeJMAPClientLive`,
  together with the position in the attempt stream and the log of issued
  HTTP requests, forms `ClientState`; every operation maps a state to a
  result/state pair.
-/

namespace JMAP

/-- A JSON value (numbers restricted to integers). -/
inductive Json where
  | null : Json
  | bool (b : Bool) : Json
  | num (n : Int) : Json
  | str (s : String) : Json
  | arr (elems : List Json) : Json
  | obj (fields : List (String × Json)) : Json

/-- Field access on a JSON object (first matching key); `none` models the
JavaScript value undefined, which is also what reading a property of a
non-null primitive or array yields.  Reading a property of JSON null
throws a TypeError instead; that case is modelled at its one occurrence,
in `fromMethodError`. -/
def Json.lookup (j : Json) (k : String) : Option Json :=
  match j with
  | .obj fields => (fields.find? (fun f => f.1 == k)).map (fun f => f.2)
  | _ => none

/-! ### Schema decoders (src/core/Types.ts)

Each `decodeX` is `Schema.decodeUnknown(X)` restricted to its success/failure
outcome: `none` means the schema rejects the value. -/

def decodeStr : Json → Option String
  | .str s => some s
  | _ => none

def decodeNum : Json → Option Int
  | .num n => some n
  | _ => none

def decodeBool : Json → Option Bool
  | .bool b => some b
  | _ => none

def decodeArrayWith (f : Json → Option β) : Json → Option (List β)
  | .arr xs => xs.mapM f
  | _ => none

/-- `Schema.Record({key: String, value: ...})`: every field value must
decode. -/
def decodeRecordWith (f : Json → Option β) : Json → Option (List (String × β))
  | .obj fields => fields.mapM (fun kv => (f kv.2).map (fun b => (kv.1, b)))
  | _ => none

/-- A required struct field: must be present and decode. -/
def decodeReqField (j : Json) (k : String) (f : Json → Option β) : Option β :=
  (j.lookup k).bind f

/-- `Schema.optional(...)`: an absent field is fine, a present one must
decode. -/
def decodeOptField (j : Json) (k : String) (f : Json → Option β) :
    Option (Option β) :=
  match j.lookup k with
  | none => some none
  | some v => (f v).map some

/-- Capability object (src/core/Types.ts). -/
structure Capability where
  maxSizeUpload : Option Int
  maxConcurrentUpload : Option Int
  maxSizeRequest : Option Int
  maxConcurrentRequests : Option Int
  maxCallsInRequest : Option Int
  maxObjectsInGet : Option Int
  maxObjectsInSet : Option Int
  collationAlgorithms : Option (List String)

def decodeCapability (j : Json) : Option Capability :=
  match j with
  | .obj _ => do
      let a ← decodeOptField j "maxSizeUpload" decodeNum
      let b ← decodeOptField j "maxConcurrentUpload" decodeNum
      let c ← decodeOptField j "maxSizeRequest" decodeNum
      let d ← decodeOptField j "maxConcurrentRequests" decodeNum
      let e ← decodeOptField j "maxCallsInRequest" decodeNum
      let f ← decodeOptField j "maxObjectsInGet" decodeNum
      let g ← decodeOptField j "maxObjectsInSet" decodeNum
      let h ← decodeOptField j "collationAlgorithms" (decodeArrayWith decodeStr)
      pure ⟨a, b, c, d, e, f, g, h⟩
  | _ => none

/-- Account object (src/core/Types.ts). -/
structure Account where
  name : String
  isPersonal : Bool
  isReadOnly : Bool
  accountCapabilities : List (String × List (String × Json))

def decodeAccount (j : Json) : Option Account :=
  match j with
  | .obj _ => do
      let n ← decodeReqField j "name" decodeStr
      let p ← decodeReqField j "isPersonal" decodeBool
      let r ← decodeReqField j "isReadOnly" decodeBool
      let caps ← decodeReqField j "accountCapabilities"
        (decodeRecordWith (decodeRecordWith some))
      pure ⟨n, p, r, caps⟩
  | _ => none

/-- Session object returned from the session endpoint (src/core/Types.ts). -/
structure Session where
  capabilities : List (String × Capability)
  accounts : List (String × Account)
  primaryAccounts : List (String × String)
  username : String
  apiUrl : String
  downloadUrl : String
  uploadUrl : String
  eventSourceUrl : String
  state : String

def decodeSession (j : Json) : Option Session :=
  match j with
  | .obj _ => do
      let caps ← decodeReqField j "capabilities" (decodeRecordWith decodeCapability)
      let accs ← decodeReqField j "accounts" (decodeRecordWith decodeAccount)
      let prim ← decodeReqField j "primaryAccounts" (decodeRecordWith decodeStr)
      let user ← decodeReqField j "username" decodeStr
      let api ← decodeReqField j "apiUrl" decodeStr
      let dl ← decodeReqField j "downloadUrl" decodeStr
      let ul ← decodeReqField j "uploadUrl" decodeStr
      let ev ← decodeReqField j "eventSourceUrl" decodeStr
      let stt ← decodeReqField j "state" decodeStr
      pure ⟨caps, accs, prim, user, api, dl, ul, ev, stt⟩
  | _ => none

/-- An Invocation / method response triple: method name, payload, call id. -/
abbrev Invocation := String × Json × String

abbrev MethodResponse := String × Json × String

/-- Schema.Tuple(String, Any, String): an array of exactly three elements
whose first and third are strings. -/
def decodeMethodResponse : Json → Option MethodResponse
  | .arr [Json.str name, payload, Json.str callId] => some (name, payload, callId)
  | _ => none

/-- JMAP Request envelope (src/core/Types.ts); the TS field `using` is the
list of capability URNs. -/
structure Request where
  usingCaps : List String
  methodCalls : List Invocation
  createdIds : Option (List (String × String))

/-- JMAP Response envelope (src/core/Types.ts). -/
structure Response where
  methodResponses : List MethodResponse
  createdIds : Option (List (String × String))
  sessionState : String

def decodeResponse (j : Json) : Option Response :=
  match j with
  | .obj _ => do
      let mrs ← decodeReqField j "methodResponses" (decodeArrayWith decodeMethodResponse)
      let cids ← decodeOptField j "createdIds" (decodeRecordWith decodeStr)
      let ss ← decodeReqField j "sessionState" decodeStr
      pure ⟨mrs, cids, ss⟩
  | _ => none

/-! ### Errors (src/core/Errors.ts)

The Effect error channel of the client operations.  `network` records the
message, whether a `cause` was attached, and the optional HTTP status;
`methodError` records the fields read off the (uninspected) error payload
plus the originating call id. -/

inductive JMAPErr where
  | network (message : String) (hasCause : Bool) (status : Option Nat)
  | authentication (message : String)
  | sessionError (message : String)
  | methodError (type : Option Json) (description : Option Json)
      (details : Option Json) (callId : Option String)
  | defect

/-! `defect` is not one of the typed JMAP errors: it models the fiber
dying on an unhandled JavaScript exception (here the TypeError thrown by
reading a property of null inside `Effect.gen`), which Effect records
outside the typed error channel.  It carries none of the JMAP error
fields and in particular no call id. -/

/-- The `type` field of a method error, `none` for the other kinds. -/
def JMAPErr.methodErrorType : JMAPErr → Option Json
  | .methodError t _ _ _ => t
  | _ => none

/-- The call id carried by a method error, `none` for the other kinds. -/
def JMAPErr.methodErrorCallId : JMAPErr → Option String
  | .methodError _ _ _ c => c
  | _ => none

/-- `JMAPMethodError.fromMethodError` (src/core/Errors.ts lines 96-104) as
reached at run time: the `error` argument arrives through the
`result as any` cast (src/core/JMAPClient.ts line 213), so the three
fields are read off the raw payload; an absent field is undefined and is
then not copied into the error.  When the payload is JSON null, the very
first read (`error.type`, Errors.ts line 98) throws a TypeError, so the
call dies as a defect that carries no call id rather than producing a
typed method error. -/
def fromMethodError (err : Json) (callId : Option String) : JMAPErr :=
  match err with
  | .null => .defect
  | _ =>
    .methodError (err.lookup "type") (err.lookup "description")
      (err.lookup "details") callId

/-! ### HTTP world and client state -/

/-- Outcome of reading and JSON-parsing a reply body. -/
inductive BodyOutcome where
  | unreadable : BodyOutcome
  | invalidJson : BodyOutcome
  | json (j : Json) : BodyOutcome

/-- One HTTP attempt as seen by the client: either the transport fails (the
retry schedule applies) or a reply with a status is received. -/
inductive Attempt where
  | transportError : Attempt
  | reply (status : Nat) (body : BodyOutcome) : Attempt

/-- A record of one issued HTTP request: a GET of the session URL or a POST
of a serialized Request envelope to the API URL. -/
inductive TraceEntry where
  | sessionGet : TraceEntry
  | apiPost (req : Request) : TraceEntry

/-- The environment of one client operation: the attempt oracle (indexed by
how many HTTP requests have been issued so far) and the current time in
milliseconds. -/
structure World where
  attempts : Nat → Attempt
  now : Nat

/-- Internal session cache entry (src/core/JMAPClient.ts lines 60-63). -/
structure SessionState where
  session : Session
  lastUpdated : Nat

/-- The mutable state of `makeJMAPClientLive` plus HTTP bookkeeping:
`sessionState` is the cached session (`null` = `none`), `attemptIdx` the
position in the attempt oracle, `trace` the HTTP requests issued so far in
order. -/
structure ClientState where
  sessionState : Option SessionState
  attemptIdx : Nat
  trace : List TraceEntry

/-- JMAP client configuration (src/core/JMAPClient.ts lines 10-19). -/
structure JMAPClientConfig where
  sessionUrl : String
  bearerToken : String
  userAgent : Option String
  timeout : Option Nat
  maxRetries : Option Nat
  retryDelay : Option Nat
  maxBatchSize : Option Nat
  enableRequestLogging : Option Bool

/-- `httpClient.execute(request).pipe(Effect.retry(retrySchedule))`: issue
attempts until a reply is received or the retry budget (`fuel` remaining
retries) is exhausted on transport failures.  Every attempt issues one HTTP
request, recorded in the trace. -/
def runAttempts (w : World) (entry : TraceEntry) :
    Nat → ClientState → Option (Nat × BodyOutcome) × ClientState
  | 0, st =>
    (match w.attempts st.attemptIdx with
     | .reply s b => some (s, b)
     | .transportError => none,
     { st with attemptIdx := st.attemptIdx + 1, trace := st.trace ++ [entry] })
  | fuel + 1, st =>
    match w.attempts st.attemptIdx with
    | .reply s b =>
        (some (s, b),
         { st with attemptIdx := st.attemptIdx + 1, trace := st.trace ++ [entry] })
    | .transportError =>
        runAttempts w entry fuel
          { st with attemptIdx := st.attemptIdx + 1, trace := st.trace ++ [entry] }

/-- Interpretation of a received session-endpoint reply
(src/core/JMAPClient.ts lines 103-128). -/
def parseSessionReply (status : Nat) (body : BodyOutcome) :
    Except JMAPErr Session :=
  if status = 401 then .error (.authentication "Invalid bearer token")
  else if status ≠ 200 then
    .error (.network ("HTTP " ++ toString status) false (some status))
  else match body with
  | .unreadable => .error (.network "Failed to read response body" false none)
  | .invalidJson => .error (.network "Invalid JSON response" true none)
  | .json j =>
    match decodeSession j with
    | none => .error (.sessionError "Invalid session response format")
    | some s => .ok s

/-- `fetchSession` (src/core/JMAPClient.ts lines 86-136): GET the session
URL with retry, interpret the reply, and cache the session (stamped with the
current time) only on full success. -/
def fetchSession (cfg : JMAPClientConfig) (w : World) (st : ClientState) :
    Except JMAPErr Session × ClientState :=
  match runAttempts w .sessionGet (cfg.maxRetries.getD 3) st with
  | (none, st1) =>
      (.error (.network "Failed to connect to JMAP server" true none), st1)
  | (some (status, body), st1) =>
    match parseSessionReply status body with
    | .error e => (.error e, st1)
    | .ok s => (.ok s, { st1 with sessionState := some ⟨s, w.now⟩ })

/-- `getSession` (src/core/JMAPClient.ts lines 138-150): serve the cached
session unless the cache is empty or `lastUpdated < now - 5 * 60 * 1000`
(strictly older than five minutes). -/
def getSession (cfg : JMAPClientConfig) (w : World) (st : ClientState) :
    Except JMAPErr Session × ClientState :=
  match st.sessionState with
  | none => fetchSession cfg w st
  | some ss =>
    if ss.lastUpdated + 5 * 60 * 1000 < w.now then fetchSession cfg w st
    else (.ok ss.session, st)

/-- First method response whose method name is literally `"error"`, with its
payload and call id (the scan of src/core/JMAPClient.ts lines 211-216 fails
on the first such entry). -/
def firstError : List MethodResponse → Option (Json × String)
  | [] => none
  | (name, result, callId) :: rest =>
    if name = "error" then some (result, callId) else firstError rest

/-- Interpretation of a received API-endpoint reply
(src/core/JMAPClient.ts lines 176-218), excluding the session-cache
side effect of the 401 branch. -/
def parseJMAPReply (status : Nat) (body : BodyOutcome) :
    Except JMAPErr Response :=
  if status = 401 then .error (.authentication "Bearer token expired or invalid")
  else if status ≠ 200 then
    .error (.network ("HTTP " ++ toString status) false (some status))
  else match body with
  | .unreadable => .error (.network "Failed to read response body" false none)
  | .invalidJson => .error (.network "Invalid JSON response" true none)
  | .json j =>
    match decodeResponse j with
    | none => .error (.network "Invalid JMAP response format" true none)
    | some resp =>
      match firstError resp.methodResponses with
      | some (payload, callId) => .error (fromMethodError payload (some callId))
      | none => .ok resp

/-- `executeJMAPRequest` (src/core/JMAPClient.ts lines 152-219): resolve the
session, POST the request with retry, interpret the reply; a 401 reply also
clears the cached session. -/
def executeJMAPRequest (cfg : JMAPClientConfig) (w : World) (req : Request)
    (st : ClientState) : Except JMAPErr Response × ClientState :=
  match getSession cfg w st with
  | (.error e, st1) => (.error e, st1)
  | (.ok _, st1) =>
    match runAttempts w (.apiPost req) (cfg.maxRetries.getD 3) st1 with
    | (none, st2) =>
        (.error (.network "Failed to send JMAP request" true none), st2)
    | (some (status, body), st2) =>
        (parseJMAPReply status body,
         if status = 401 then { st2 with sessionState := none } else st2)

/-- The chunking loop of `batch` (src/core/JMAPClient.ts lines 244-247):
`for (let i = 0; i < length; i += n) chunks.push(slice(i, i + n))`, written
with the list length as structural fuel (for `n = 0` the JavaScript loop
would not terminate; that case is unreachable from the claims, which assume
a positive batch size). -/
def chunksOfFuel (n : Nat) : Nat → List α → List (List α)
  | 0, _ => []
  | _, [] => []
  | fuel + 1, l => l.take n :: chunksOfFuel n fuel (l.drop n)

def chunksOf (n : Nat) (l : List α) : List (List α) :=
  chunksOfFuel n l.length l

/-- The default `using` capability list of `batch`
(src/core/JMAPClient.ts line 238). -/
def defaultUsing : List String :=
  ["urn:ietf:params:jmap:core", "urn:ietf:params:jmap:mail"]

/-- The sequential chunk loop of `batch` (src/core/JMAPClient.ts lines
250-261), accumulating `allResponses` and `latestSessionState`. -/
def runChunks (cfg : JMAPClientConfig) (w : World) (u : List String) :
    List (List Invocation) → List MethodResponse → String → ClientState →
    Except JMAPErr (List MethodResponse × String) × ClientState
  | [], acc, latest, st => (.ok (acc, latest), st)
  | c :: cs, acc, _latest, st =>
    match executeJMAPRequest cfg w ⟨u, c, none⟩ st with
    | (.error e, st1) => (.error e, st1)
    | (.ok resp, st1) =>
        runChunks cfg w u cs (acc ++ resp.methodResponses) resp.sessionState st1

/-- `batch` (src/core/JMAPClient.ts lines 236-278). -/
def batch (cfg : JMAPClientConfig) (w : World) (methodCalls : List Invocation)
    (u : List String) (st : ClientState) :
    Except JMAPErr Response × ClientState :=
  let maxBatchSize := cfg.maxBatchSize.getD 50
  if maxBatchSize < methodCalls.length then
    match runChunks cfg w u (chunksOf maxBatchSize methodCalls) [] "" st with
    | (.error e, st1) => (.error e, st1)
    | (.ok (allResponses, latest), st1) =>
        (.ok ⟨allResponses, none, latest⟩, st1)
  else
    executeJMAPRequest cfg w ⟨u, methodCalls, none⟩ st

/-- `extractMethodResponse` (response-extraction utility).  The guard on a
missing `methodResponses` field is unreachable for a typed `Response` value
and is omitted; the description of the shape-validation failure abbreviates
the interpolated parse error of the source. -/
def extractMethodResponse (response : Response) (methodName : String)
    (callId : String) (dec : Json → Option α) : Except JMAPErr α :=
  match response.methodResponses.find?
      (fun mr => mr.1 == methodName && mr.2.2 == callId) with
  | none =>
      .error (fromMethodError
        (.obj [("type", .str "serverFail"),
               ("description", .str ("Method response not found for " ++ methodName))])
        (some callId))
  | some (_, result, _) =>
    match dec result with
    | none =>
        .error (fromMethodError
          (.obj [("type", .str "serverFail"),
                 ("description", .str "Invalid response format")])
          (some callId))
    | some a => .ok a

/-! ### Derived notions used by the theorems -/

/-- The cached session exists and is served without refetch by `getSession`
at time `w.now` (the negation of the refresh test on line 145). -/
def CacheFresh (w : World) (st : ClientState) : Prop :=
  ∃ ss, st.sessionState = some ss ∧ ¬ (ss.lastUpdated + 5 * 60 * 1000 < w.now)

/-- State change of one API exchange that receives a non-401 reply on its
first attempt: one more HTTP request issued, cache untouched. -/
def afterExchange (st : ClientState) (req : Request) : ClientState :=
  { st with attemptIdx := st.attemptIdx + 1, trace := st.trace ++ [.apiPost req] }

/-- The attempt oracle answers request number `n` with a 200 reply whose
body decodes to the envelope `r` containing no `"error"` invocation. -/
def ServesOk (w : World) (n : Nat) (r : Response) : Prop :=
  ∃ b, w.attempts n = .reply 200 (.json b) ∧ decodeResponse b = some r ∧
    firstError r.methodResponses = none

/-- Last element of a list, or the default for the empty list (the shape of
the `latestSessionState` accumulator of `batch`). -/
def lastD : List α → α → α
  | [], d => d
  | x :: xs, _ => lastD xs x

/-! ### Concrete example data for the evaluated instances -/

def exSession : Session :=
  ⟨[], [], [], "user@example.com", "https://api.example.com/jmap/api",
   "https://api.example.com/dl", "https://api.example.com/ul",
   "https://api.example.com/es", "sess-state-0"⟩

/-- A client state whose session cache was filled at time 0. -/
def exStCached : ClientState := ⟨some ⟨exSession, 0⟩, 0, []⟩

/-- A client state with an empty session cache. -/
def exStEmpty : ClientState := ⟨none, 0, []⟩

/-- A configuration with `maxBatchSize = 2` (the chunking scenario). -/
def exCfg2 : JMAPClientConfig :=
  ⟨"https://api.example.com/jmap/session", "token", none, none, none, none,
   some 2, none⟩

/-- Five invocations named A..E with call ids 1..5. -/
def exCalls5 : List Invocation :=
  [("A", .null, "1"), ("B", .null, "2"), ("C", .null, "3"),
   ("D", .null, "4"), ("E", .null, "5")]

/-- Reply body of the first chunk exchange: echoes calls A,B. -/
def exBody0 : Json :=
  .obj [("methodResponses",
          .arr [.arr [.str "A", .null, .str "1"], .arr [.str "B", .null, .str "2"]]),
        ("sessionState", .str "chunk-state-0")]

/-- Reply body of the second chunk exchange: echoes calls C,D and carries a
`createdIds` map. -/
def exBody1 : Json :=
  .obj [("methodResponses",
          .arr [.arr [.str "C", .null, .str "3"], .arr [.str "D", .null, .str "4"]]),
        ("createdIds", .obj [("tmp", .str "real")]),
        ("sessionState", .str "chunk-state-1")]

/-- Reply body of the third chunk exchange: echoes call E. -/
def exBody2 : Json :=
  .obj [("methodResponses", .arr [.arr [.str "E", .null, .str "5"]]),
        ("sessionState", .str "chunk-state-2")]

def exResp0 : Response := ⟨[("A", .null, "1"), ("B", .null, "2")], none, "chunk-state-0"⟩

def exResp1 : Response :=
  ⟨[("C", .null, "3"), ("D", .null, "4")], some [("tmp", "real")], "chunk-state-1"⟩

def exResp2 : Response := ⟨[("E", .null, "5")], none, "chunk-state-2"⟩

/-- A world serving the three chunk replies in order at time 0. -/
def exWorldChunks : World :=
  ⟨fun i => match i with
    | 0 => .reply 200 (.json exBody0)
    | 1 => .reply 200 (.json exBody1)
    | _ => .reply 200 (.json exBody2), 0⟩

/-- The spec scenario body with a server-reported method error. -/
def exBodyErr : Json :=
  .obj [("methodResponses",
          .arr [.arr [.str "error", .obj [("type", .str "accountNotFound")],
                      .str "c1"]]),
        ("sessionState", .str "s1")]

def exRespErr : Response :=
  ⟨[("error", .obj [("type", .str "accountNotFound")], "c1")], none, "s1"⟩

/-- A world answering every request with the method-error body. -/
def exWorldErr : World := ⟨fun _ => .reply 200 (.json exBodyErr), 0⟩

/-- A wire-legal method-error body whose error payload is JSON null
(`Schema.Tuple(String, Any, String)` accepts it). -/
def exBodyErrNull : Json :=
  .obj [("methodResponses", .arr [.arr [.str "error", .null, .str "c1"]]),
        ("sessionState", .str "s1")]

/-- A world answering every request with the null-payload error body. -/
def exWorldErrNull : World := ⟨fun _ => .reply 200 (.json exBodyErrNull), 0⟩

/-- A world answering every request with HTTP 401. -/
def exWorld401 : World := ⟨fun _ => .reply 401 (.json .null), 0⟩

/-- A world answering every request 200 with an unparsable body. -/
def exWorldBadJson : World := ⟨fun _ => .reply 200 .invalidJson, 0⟩

/-- A session body that is valid JSON but lacks the required `apiUrl`. -/
def exBodyNoApi : Json :=
  .obj [("capabilities", .obj []), ("accounts", .obj []),
        ("primaryAccounts", .obj []), ("username", .str "user@example.com"),
        ("downloadUrl", .str "https://api.example.com/dl"),
        ("uploadUrl", .str "https://api.example.com/ul"),
        ("eventSourceUrl", .str "https://api.example.com/es"),
        ("state", .str "sess-state-0")]

/-- A world answering every request 200 with the apiUrl-less body. -/
def exWorldNoApi : World := ⟨fun _ => .reply 200 (.json exBodyNoApi), 0⟩

/-- A world whose first exchange succeeds and whose second fails with
HTTP 503. -/
def exWorldFail : World :=
  ⟨fun i => match i with
    | 0 => .reply 200 (.json exBody0)
    | _ => .reply 503 .unreadable, 0⟩

/-- A single-call reply body carrying a `createdIds` map. -/
def exBodySingle : Json :=
  .obj [("methodResponses", .arr [.arr [.str "A", .null, .str "1"]]),
        ("createdIds", .obj [("k", .str "v")]),
        ("sessionState", .str "s-single")]

def exRespSingle : Response := ⟨[("A", .null, "1")], some [("k", "v")], "s-single"⟩

/-- A world answering every request with the createdIds-carrying body. -/
def exWorldSingle : World := ⟨fun _ => .reply 200 (.json exBodySingle), 0⟩

/-! ### Lemmas about the HTTP retry layer -/

theorem runAttempts_reply (w : World) (entry : TraceEntry) (fuel : Nat)
    (st : ClientState) (s : Nat) (b : BodyOutcome)
    (h : w.attempts st.attemptIdx = .reply s b) :
    runAttempts w entry fuel st =
      (some (s, b),
       { st with attemptIdx := st.attemptIdx + 1, trace := st.trace ++ [entry] }) := by
  cases fuel <;> simp [runAttempts, h]

theorem runAttempts_sessionState (w : World) (entry : TraceEntry) :
    ∀ (fuel : Nat) (st : ClientState),
      ((runAttempts w entry fuel st).2).sessionState = st.sessionState := by
  intro fuel
  induction fuel with
  | zero => intro st; rfl
  | succ n ih =>
      intro st
      cases h : w.attempts st.attemptIdx <;> simp [runAttempts, h, ih]

theorem runAttempts_trace (w : World) (entry : TraceEntry) :
    ∀ (fuel : Nat) (st : ClientState), ∃ k, 0 < k ∧
      (runAttempts w entry fuel st).2.trace = st.trace ++ List.replicate k entry ∧
      (runAttempts w entry fuel st).2.attemptIdx = st.attemptIdx + k := by
  intro fuel
  induction fuel with
  | zero => intro st; exact ⟨1, Nat.one_pos, rfl, rfl⟩
  | succ n ih =>
      intro st
      cases h : w.attempts st.attemptIdx with
      | reply s b => exact ⟨1, Nat.one_pos, by simp [runAttempts, h], by simp [runAttempts, h]⟩
      | transportError =>
          obtain ⟨k, hk, htr, hidx⟩ :=
            ih { st with attemptIdx := st.attemptIdx + 1, trace := st.trace ++ [entry] }
          refine ⟨k + 1, Nat.succ_pos k, ?_, ?_⟩
          · simp only [runAttempts, h]
            rw [htr]
            simp [List.replicate_succ, List.append_assoc]
          · simp only [runAttempts, h]
            rw [hidx]
            show st.attemptIdx + 1 + k = st.attemptIdx + (k + 1)
            omega

/-! ### Lemmas about session resolution and a single exchange -/

theorem getSession_cached (cfg : JMAPClientConfig) (w : World) (st : ClientState)
    (ss : SessionState) (hc : st.sessionState = some ss)
    (hf : ¬ (ss.lastUpdated + 5 * 60 * 1000 < w.now)) :
    getSession cfg w st = (.ok ss.session, st) := by
  simp [getSession, hc, hf]

theorem executeJMAPRequest_reply (cfg : JMAPClientConfig) (w : World)
    (req : Request) (st : ClientState) (s : Nat) (b : BodyOutcome)
    (hfresh : CacheFresh w st)
    (hatt : w.attempts st.attemptIdx = .reply s b) :
    executeJMAPRequest cfg w req st =
      (parseJMAPReply s b,
       if s = 401 then { afterExchange st req with sessionState := none }
       else afterExchange st req) := by
  obtain ⟨ss, hc, hf⟩ := hfresh
  simp only [executeJMAPRequest, getSession_cached cfg w st ss hc hf,
    runAttempts_reply w _ _ st s b hatt, afterExchange]

theorem parseJMAPReply_ok (b : Json) (r : Response)
    (hdec : decodeResponse b = some r)
    (hfe : firstError r.methodResponses = none) :
    parseJMAPReply 200 (.json b) = .ok r := by
  simp [parseJMAPReply, hdec, hfe]

theorem executeJMAPRequest_ok (cfg : JMAPClientConfig) (w : World)
    (req : Request) (st : ClientState) (r : Response)
    (hfresh : CacheFresh w st) (hserve : ServesOk w st.attemptIdx r) :
    executeJMAPRequest cfg w req st = (.ok r, afterExchange st req) := by
  obtain ⟨b, hatt, hdec, hfe⟩ := hserve
  rw [executeJMAPRequest_reply cfg w req st 200 (.json b) hfresh hatt]
  simp [parseJMAPReply_ok b r hdec hfe]

theorem cacheFresh_afterExchange (w : World) (st : ClientState) (req : Request)
    (h : CacheFresh w st) : CacheFresh w (afterExchange st req) := h

/-! ### Lemmas about the chunk partition -/

theorem chunksOfFuel_nil (n : Nat) (fuel : Nat) :
    chunksOfFuel n fuel ([] : List α) = [] := by
  cases fuel <;> rfl

theorem chunksOfFuel_flatten (n : Nat) (hn : 0 < n) :
    ∀ (fuel : Nat) (l : List α), l.length ≤ fuel →
      (chunksOfFuel n fuel l).flatten = l := by
  intro fuel
  induction fuel with
  | zero =>
      intro l hl
      have : l = [] := List.length_eq_zero.mp (Nat.le_zero.mp hl)
      subst this; rfl
  | succ m ih =>
      intro l hl
      cases l with
      | nil => rfl
      | cons x xs =>
          have hdrop : ((x :: xs).drop n).length ≤ m := by
            simp only [List.length_drop, List.length_cons]
            simp only [List.length_cons] at hl
            omega
          simp only [chunksOfFuel, List.flatten_cons, ih _ hdrop,
            List.take_append_drop]

theorem chunksOf_flatten (n : Nat) (hn : 0 < n) (l : List α) :
    (chunksOf n l).flatten = l :=
  chunksOfFuel_flatten n hn l.length l le_rfl

theorem chunksOfFuel_mem (n : Nat) (hn : 0 < n) :
    ∀ (fuel : Nat) (l : List α), ∀ c ∈ chunksOfFuel n fuel l,
      c.length ≤ n ∧ c ≠ [] := by
  intro fuel
  induction fuel with
  | zero => intro l c hc; simp [chunksOfFuel] at hc
  | succ m ih =>
      intro l c hc
      cases l with
      | nil => simp [chunksOfFuel] at hc
      | cons x xs =>
          simp only [chunksOfFuel, List.mem_cons] at hc
          rcases hc with rfl | hc
          · constructor
            · simp [List.length_take]
            · simp [List.take_eq_nil_iff]
              omega
          · exact ih _ c hc

theorem chunksOf_mem (n : Nat) (hn : 0 < n) (l : List α) :
    ∀ c ∈ chunksOf n l, c.length ≤ n ∧ c ≠ [] :=
  chunksOfFuel_mem n hn l.length l

theorem chunksOfFuel_length (n : Nat) (hn : 0 < n) :
    ∀ (fuel : Nat) (l : List α), l.length ≤ fuel → l ≠ [] →
      (chunksOfFuel n fuel l).length = (l.length + n - 1) / n := by
  intro fuel
  induction fuel with
  | zero =>
      intro l hl hne
      exact absurd (List.length_eq_zero.mp (Nat.le_zero.mp hl)) hne
  | succ m ih =>
      intro l hl hne
      cases l with
      | nil => exact absurd rfl hne
      | cons x xs =>
          simp only [List.length_cons] at hl
          by_cases hle : xs.length + 1 ≤ n
          · have hdrop : (x :: xs).drop n = [] := by
              rw [List.drop_eq_nil_iff]
              simpa using hle
            simp only [chunksOfFuel, hdrop, chunksOfFuel_nil, List.length_cons,
              List.length_nil]
            have h1 : 1 * n ≤ xs.length + 1 + n - 1 := by omega
            have h2 : xs.length + 1 + n - 1 < (1 + 1) * n := by omega
            rw [Nat.div_eq_of_lt_le h1 h2]
          · push_neg at hle
            have hdne : (x :: xs).drop n ≠ [] := by
              rw [ne_eq, List.drop_eq_nil_iff]
              simp only [List.length_cons]
              omega
            have hdl : ((x :: xs).drop n).length ≤ m := by
              simp only [List.length_drop, List.length_cons]
              omega
            simp only [chunksOfFuel, List.length_cons, ih _ hdl hdne,
              List.length_drop]
            have h1 : xs.length + 1 - n + n - 1 = xs.length := by omega
            have h2 : xs.length + 1 + n - 1 = xs.length + n := by omega
            rw [h1, h2, Nat.add_div_right _ hn]

theorem chunksOf_length (n : Nat) (hn : 0 < n) (l : List α) (hne : l ≠ []) :
    (chunksOf n l).length = (l.length + n - 1) / n :=
  chunksOfFuel_length n hn l.length l le_rfl hne

/-! ### Lemmas about the chunk loop -/

theorem lastD_map_getLast (f : β → α) :
    ∀ (l : List β) (hne : l ≠ []) (d : α), lastD (l.map f) d = f (l.getLast hne) := by
  intro l
  induction l with
  | nil => intro hne; exact absurd rfl hne
  | cons x xs ih =>
      intro _ d
      cases xs with
      | nil => rfl
      | cons y ys =>
          rw [List.getLast_cons (by simp)]
          exact ih (by simp) (f x)

theorem runChunks_ok (cfg : JMAPClientConfig) (w : World) (u : List String) :
    ∀ (cs : List (List Invocation)) (rs : List Response)
      (acc : List MethodResponse) (latest : String) (st : ClientState),
      CacheFresh w st →
      rs.length = cs.length →
      (∀ i (hi : i < rs.length), ServesOk w (st.attemptIdx + i) (rs.get ⟨i, hi⟩)) →
      runChunks cfg w u cs acc latest st =
        (.ok (acc ++ (rs.map Response.methodResponses).flatten,
              lastD (rs.map Response.sessionState) latest),
         { st with attemptIdx := st.attemptIdx + cs.length,
                   trace := st.trace ++
                     cs.map (fun c => TraceEntry.apiPost ⟨u, c, none⟩) }) := by
  intro cs
  induction cs with
  | nil =>
      intro rs acc latest st _ hlen _
      have : rs = [] := List.length_eq_zero.mp (by simpa using hlen)
      subst this
      simp [runChunks, lastD]
  | cons c cs ih =>
      intro rs acc latest st hfresh hlen hserve
      cases rs with
      | nil => simp at hlen
      | cons r rs' =>
          have h0 : ServesOk w (st.attemptIdx + 0) ((r :: rs').get ⟨0, by simp⟩) :=
            hserve 0 (by simp)
          simp only [List.get] at h0
          have hex := executeJMAPRequest_ok cfg w ⟨u, c, none⟩ st r hfresh
            (by simpa using h0)
          have hserve' : ∀ i (hi : i < rs'.length),
              ServesOk w ((afterExchange st ⟨u, c, none⟩).attemptIdx + i)
                (rs'.get ⟨i, hi⟩) := by
            intro i hi
            have h1 := hserve (i + 1) (by simpa using Nat.succ_lt_succ hi)
            simp only [List.get] at h1
            have h2 : st.attemptIdx + (i + 1) =
                (afterExchange st ⟨u, c, none⟩).attemptIdx + i := by
              simp [afterExchange]; omega
            rw [h2] at h1
            exact h1
          have hrec := ih rs' (acc ++ r.methodResponses) r.sessionState
            (afterExchange st ⟨u, c, none⟩)
            (cacheFresh_afterExchange w st _ hfresh)
            (by simpa using hlen) hserve'
          simp only [afterExchange] at hex hrec
          simp only [runChunks, hex, hrec, Prod.mk.injEq, Except.ok.injEq,
            ClientState.mk.injEq, List.map_cons, List.flatten_cons,
            List.length_cons, List.append_assoc, List.singleton_append, lastD]
          refine ⟨trivial, trivial, by omega, trivial⟩

theorem batch_chunked_ok (cfg : JMAPClientConfig) (w : World)
    (mc : List Invocation) (u : List String) (st : ClientState)
    (rs : List Response)
    (hlong : cfg.maxBatchSize.getD 50 < mc.length)
    (hfresh : CacheFresh w st)
    (hlen : rs.length = (chunksOf (cfg.maxBatchSize.getD 50) mc).length)
    (hserve : ∀ i (hi : i < rs.length),
      ServesOk w (st.attemptIdx + i) (rs.get ⟨i, hi⟩)) :
    batch cfg w mc u st =
      (.ok ⟨(rs.map Response.methodResponses).flatten, none,
            lastD (rs.map Response.sessionState) ""⟩,
       { st with
           attemptIdx :=
             st.attemptIdx + (chunksOf (cfg.maxBatchSize.getD 50) mc).length,
           trace := st.trace ++ (chunksOf (cfg.maxBatchSize.getD 50) mc).map
             (fun c => TraceEntry.apiPost ⟨u, c, none⟩) }) := by
  have hrc := runChunks_ok cfg w u (chunksOf (cfg.maxBatchSize.getD 50) mc) rs
    [] "" st hfresh hlen hserve
  simp only [batch, if_pos hlong, hrc, List.nil_append]

theorem runChunks_fail (cfg : JMAPClientConfig) (w : World) (u : List String) :
    ∀ (cs : List (List Invocation)) (rs : List Response) (j : Nat)
      (acc : List MethodResponse) (latest : String) (st : ClientState)
      (s : Nat) (b : BodyOutcome) (e : JMAPErr),
      CacheFresh w st →
      rs.length = j →
      j < cs.length →
      (∀ i (hi : i < rs.length), ServesOk w (st.attemptIdx + i) (rs.get ⟨i, hi⟩)) →
      w.attempts (st.attemptIdx + j) = .reply s b →
      parseJMAPReply s b = .error e →
      runChunks cfg w u cs acc latest st =
        (.error e,
         { sessionState := if s = 401 then none else st.sessionState,
           attemptIdx := st.attemptIdx + j + 1,
           trace := st.trace ++ (cs.take (j + 1)).map
             (fun c => TraceEntry.apiPost ⟨u, c, none⟩) }) := by
  intro cs
  induction cs with
  | nil =>
      intro rs j acc latest st s b e _ _ hj _ _ _
      simp at hj
  | cons c cs ih =>
      intro rs j acc latest st s b e hfresh hlen hj hserve hatt herr
      cases rs with
      | nil =>
          have hj0 : j = 0 := by simpa using hlen.symm
          subst hj0
          have hatt0 : w.attempts st.attemptIdx = .reply s b := by simpa using hatt
          have hx := executeJMAPRequest_reply cfg w ⟨u, c, none⟩ st s b hfresh hatt0
          rw [herr] at hx
          simp only [runChunks, hx, afterExchange]
          by_cases h401 : s = 401 <;>
            simp [h401, List.take_succ_cons, List.take_zero]
      | cons r rs' =>
          subst hlen
          have h0 : ServesOk w (st.attemptIdx + 0) ((r :: rs').get ⟨0, by simp⟩) :=
            hserve 0 (by simp)
          simp only [List.get] at h0
          have hex := executeJMAPRequest_ok cfg w ⟨u, c, none⟩ st r hfresh
            (by simpa using h0)
          have hserve' : ∀ i (hi : i < rs'.length),
              ServesOk w ((afterExchange st ⟨u, c, none⟩).attemptIdx + i)
                (rs'.get ⟨i, hi⟩) := by
            intro i hi
            have h1 := hserve (i + 1) (by simpa using Nat.succ_lt_succ hi)
            simp only [List.get] at h1
            have h2 : st.attemptIdx + (i + 1) =
                (afterExchange st ⟨u, c, none⟩).attemptIdx + i := by
              simp [afterExchange]; omega
            rw [h2] at h1
            exact h1
          have hatt' : w.attempts
              ((afterExchange st ⟨u, c, none⟩).attemptIdx + rs'.length) =
              .reply s b := by
            have h2 : (afterExchange st ⟨u, c, none⟩).attemptIdx + rs'.length =
                st.attemptIdx + (r :: rs').length := by
              simp [afterExchange]; omega
            rw [h2]
            exact hatt
          have hrec := ih rs' rs'.length (acc ++ r.methodResponses) r.sessionState
            (afterExchange st ⟨u, c, none⟩) s b e
            (cacheFresh_afterExchange w st _ hfresh) rfl
            (by simpa using hj) hserve' hatt' herr
          simp only [afterExchange] at hex hrec
          simp only [runChunks, hex, hrec, Prod.mk.injEq, ClientState.mk.injEq,
            List.length_cons, List.take_succ_cons, List.map_cons,
            List.append_assoc, List.singleton_append]
          refine ⟨trivial, trivial, by omega, trivial⟩

/-! ### The error scan never lets an error invocation through -/

theorem parseJMAPReply_ok_firstError (s : Nat) (b : BodyOutcome) (r : Response)
    (h : parseJMAPReply s b = .ok r) : firstError r.methodResponses = none := by
  unfold parseJMAPReply at h
  split at h
  · exact Except.noConfusion h
  · split at h
    · exact Except.noConfusion h
    · split at h
      · exact Except.noConfusion h
      · exact Except.noConfusion h
      · split at h
        · exact Except.noConfusion h
        · split at h
          · exact Except.noConfusion h
          · rename_i hfe
            cases h
            exact hfe

theorem executeJMAPRequest_ok_result (cfg : JMAPClientConfig) (w : World)
    (req : Request) (st : ClientState) (r : Response) (st' : ClientState)
    (h : executeJMAPRequest cfg w req st = (.ok r, st')) :
    firstError r.methodResponses = none := by
  unfold executeJMAPRequest at h
  split at h
  · exact Except.noConfusion (congrArg Prod.fst h)
  · split at h
    · exact Except.noConfusion (congrArg Prod.fst h)
    · exact parseJMAPReply_ok_firstError _ _ r (congrArg Prod.fst h)

theorem firstError_append (xs ys : List MethodResponse) :
    firstError (xs ++ ys) = none ↔
      firstError xs = none ∧ firstError ys = none := by
  induction xs with
  | nil => simp [firstError]
  | cons x xs ih =>
      rcases x with ⟨name, payload, callId⟩
      by_cases h : name = "error" <;> simp [firstError, h, ih]

theorem runChunks_ok_result (cfg : JMAPClientConfig) (w : World) (u : List String) :
    ∀ (cs : List (List Invocation)) (acc : List MethodResponse) (latest : String)
      (st : ClientState) (out : List MethodResponse) (sOut : String)
      (st' : ClientState),
      runChunks cfg w u cs acc latest st = (.ok (out, sOut), st') →
      firstError acc = none → firstError out = none := by
  intro cs
  induction cs with
  | nil =>
      intro acc latest st out sOut st' h hacc
      have h1 : Except.ok (ε := JMAPErr) (acc, latest) = Except.ok (out, sOut) :=
        congrArg Prod.fst h
      cases h1
      exact hacc
  | cons c cs ih =>
      intro acc latest st out sOut st' h hacc
      unfold runChunks at h
      split at h
      · exact Except.noConfusion (congrArg Prod.fst h)
      · rename_i resp st1 hx
        have hre : firstError resp.methodResponses = none :=
          executeJMAPRequest_ok_result cfg w _ st resp st1 hx
        exact ih _ _ _ _ _ _ h ((firstError_append _ _).mpr ⟨hacc, hre⟩)

theorem batch_ok_result (cfg : JMAPClientConfig) (w : World)
    (mc : List Invocation) (u : List String) (st : ClientState)
    (resp : Response) (st' : ClientState)
    (h : batch cfg w mc u st = (.ok resp, st')) :
    firstError resp.methodResponses = none := by
  simp only [batch] at h
  split at h
  · rcases hrc : runChunks cfg w u (chunksOf (cfg.maxBatchSize.getD 50) mc) [] "" st
      with ⟨res, st1⟩
    rw [hrc] at h
    cases res with
    | error e => exact Except.noConfusion (congrArg Prod.fst h)
    | ok outPair =>
        rcases outPair with ⟨out, latest⟩
        have hre : firstError out = none :=
          runChunks_ok_result cfg w u _ [] "" st out latest st1 hrc rfl
        have h1 : Except.ok (Response.mk out none latest) = Except.ok resp :=
          congrArg Prod.fst h
        cases h1
        exact hre
  · exact executeJMAPRequest_ok_result cfg w _ st resp st' h

/-! ### Cache is written only on full fetch success -/

theorem fetchSession_error_cache (cfg : JMAPClientConfig) (w : World)
    (st : ClientState) (e : JMAPErr) (st' : ClientState)
    (h : fetchSession cfg w st = (.error e, st')) :
    st'.sessionState = st.sessionState := by
  unfold fetchSession at h
  split at h
  · rename_i st1 heq
    have hst1 : st1.sessionState = st.sessionState := by
      have h2 := runAttempts_sessionState w .sessionGet (cfg.maxRetries.getD 3) st
      rw [heq] at h2
      exact h2
    have h2 : st1 = st' := congrArg Prod.snd h
    rw [← h2]
    exact hst1
  · rename_i status body st1 heq
    have hst1 : st1.sessionState = st.sessionState := by
      have h2 := runAttempts_sessionState w .sessionGet (cfg.maxRetries.getD 3) st
      rw [heq] at h2
      exact h2
    split at h
    · have h2 : st1 = st' := congrArg Prod.snd h
      rw [← h2]
      exact hst1
    · exact Except.noConfusion (congrArg Prod.fst h)

theorem fetchSession_trace (cfg : JMAPClientConfig) (w : World) (st : ClientState) :
    ∃ k, 0 < k ∧
      (fetchSession cfg w st).2.trace =
        st.trace ++ List.replicate k TraceEntry.sessionGet := by
  obtain ⟨k, hk, htr, _⟩ := runAttempts_trace w .sessionGet (cfg.maxRetries.getD 3) st
  refine ⟨k, hk, ?_⟩
  unfold fetchSession
  split
  · rename_i st1 heq
    rw [heq] at htr
    exact htr
  · rename_i status body st1 heq
    rw [heq] at htr
    split
    · exact htr
    · exact htr

theorem firstError_clean_prefix :
    ∀ (pre : List MethodResponse) (p : Json) (x : String)
      (post : List MethodResponse),
      (∀ mr ∈ pre, mr.1 ≠ "error") →
      firstError (pre ++ ("error", p, x) :: post) = some (p, x) := by
  intro pre
  induction pre with
  | nil => intro p x post _; simp [firstError]
  | cons m ms ih =>
      rcases m with ⟨name, payload, callId⟩
      intro p x post hclean
      have hn : name ≠ "error" := hclean (name, payload, callId) (by simp)
      simp only [List.cons_append, firstError, if_neg hn]
      exact ih p x post (fun mr hmr => hclean mr (List.mem_cons_of_mem _ hmr))

theorem parseJMAPReply_methodError (b : Json) (r : Response) (p : Json)
    (x : String) (hdec : decodeResponse b = some r)
    (hfe : firstError r.methodResponses = some (p, x)) :
    parseJMAPReply 200 (.json b) = .error (fromMethodError p (some x)) := by
  simp [parseJMAPReply, hdec, hfe]

/-! ## Claim theorems -/

/-- C1: for a `methodCalls` list longer than `maxBatchSize` (default 50)
and a run in which the session is cached and every chunk exchange is
served a well-formed, error-free 200 reply, `batch` partitions the calls
into ordered contiguous chunks of at most `maxBatchSize` (their
concatenation is the input, so input order is preserved), issues exactly
ceil(length / maxBatchSize) HTTP exchanges sequentially in input order
(the trace extends by one POST per chunk, in chunk order), and returns a
combined Response whose `methodResponses` is the concatenation of the
chunk responses in chunk order. -/
theorem C1_batch_chunking (cfg : JMAPClientConfig) (w : World)
    (mc : List Invocation) (u : List String) (st : ClientState)
    (rs : List Response)
    (hmax : 0 < cfg.maxBatchSize.getD 50)
    (hlong : cfg.maxBatchSize.getD 50 < mc.length)
    (hfresh : CacheFresh w st)
    (hlen : rs.length = (chunksOf (cfg.maxBatchSize.getD 50) mc).length)
    (hserve : ∀ i (hi : i < rs.length),
      ServesOk w (st.attemptIdx + i) (rs.get ⟨i, hi⟩)) :
    (chunksOf (cfg.maxBatchSize.getD 50) mc).flatten = mc ∧
    (∀ c ∈ chunksOf (cfg.maxBatchSize.getD 50) mc,
      c.length ≤ cfg.maxBatchSize.getD 50 ∧ c ≠ []) ∧
    (chunksOf (cfg.maxBatchSize.getD 50) mc).length =
      (mc.length + cfg.maxBatchSize.getD 50 - 1) / cfg.maxBatchSize.getD 50 ∧
    batch cfg w mc u st =
      (.ok ⟨(rs.map Response.methodResponses).flatten, none,
            lastD (rs.map Response.sessionState) ""⟩,
       { st with
           attemptIdx :=
             st.attemptIdx + (chunksOf (cfg.maxBatchSize.getD 50) mc).length,
           trace := st.trace ++ (chunksOf (cfg.maxBatchSize.getD 50) mc).map
             (fun c => TraceEntry.apiPost ⟨u, c, none⟩) }) := by
  have hne : mc ≠ [] := by
    intro hmc
    subst hmc
    simp at hlong
  exact ⟨chunksOf_flatten _ hmax mc, chunksOf_mem _ hmax mc,
    chunksOf_length _ hmax mc hne,
    batch_chunked_ok cfg w mc u st rs hlong hfresh hlen hserve⟩

/-- Witness for C1: `maxBatchSize = 2`, five invocations A..E with call
ids 1..5, three exchanges of sizes 2,2,1, combined response in order. -/
theorem C1_batch_chunking_witness :
    (chunksOf (exCfg2.maxBatchSize.getD 50) exCalls5).flatten = exCalls5 ∧
    (∀ c ∈ chunksOf (exCfg2.maxBatchSize.getD 50) exCalls5,
      c.length ≤ exCfg2.maxBatchSize.getD 50 ∧ c ≠ []) ∧
    (chunksOf (exCfg2.maxBatchSize.getD 50) exCalls5).length =
      (exCalls5.length + exCfg2.maxBatchSize.getD 50 - 1) /
        exCfg2.maxBatchSize.getD 50 ∧
    batch exCfg2 exWorldChunks exCalls5 defaultUsing exStCached =
      (.ok ⟨([exResp0, exResp1, exResp2].map Response.methodResponses).flatten,
            none,
            lastD ([exResp0, exResp1, exResp2].map Response.sessionState) ""⟩,
       { exStCached with
           attemptIdx := exStCached.attemptIdx +
             (chunksOf (exCfg2.maxBatchSize.getD 50) exCalls5).length,
           trace := exStCached.trace ++
             (chunksOf (exCfg2.maxBatchSize.getD 50) exCalls5).map
               (fun c => TraceEntry.apiPost ⟨defaultUsing, c, none⟩) }) :=
  C1_batch_chunking exCfg2 exWorldChunks exCalls5 defaultUsing exStCached
    [exResp0, exResp1, exResp2] (by decide) (by decide)
    ⟨⟨exSession, 0⟩, rfl, by decide⟩ (by decide)
    (by
      intro i hi
      simp only [List.length_cons, List.length_nil] at hi
      interval_cases i
      · exact ⟨exBody0, rfl, rfl, rfl⟩
      · exact ⟨exBody1, rfl, rfl, rfl⟩
      · exact ⟨exBody2, rfl, rfl, rfl⟩)

/-- C2 counterexample: extracting a pair absent from `methodResponses`
fails with a method error whose `type` is the string `serverFail`, not
`notFound` — the claimed "not found" error kind is never produced. -/
theorem C2_extract_not_found_kind_cex :
    extractMethodResponse ⟨[], none, "state-0"⟩ "Email/get" "c1" some =
      .error (.methodError (some (.str "serverFail"))
        (some (.str "Method response not found for Email/get"))
        none (some "c1")) ∧
    "serverFail" ≠ "notFound" := ⟨rfl, by decide⟩

/-- C2 (amended): both extraction failures — an absent method-name/call-id
pair, and a present pair whose payload fails shape validation — fail with
a method error of the `serverFail` kind carrying the requested call id;
the absent case is distinguished only by its not-found description. -/
theorem C2_extract_failure_kinds (resp : Response) (methodName callId : String)
    (dec : Json → Option α) :
    (resp.methodResponses.find?
        (fun mr => mr.1 == methodName && mr.2.2 == callId) = none →
      extractMethodResponse resp methodName callId dec =
        .error (.methodError (some (.str "serverFail"))
          (some (.str ("Method response not found for " ++ methodName)))
          none (some callId))) ∧
    (∀ name result cid,
      resp.methodResponses.find?
          (fun mr => mr.1 == methodName && mr.2.2 == callId) =
        some (name, result, cid) →
      dec result = none →
      extractMethodResponse resp methodName callId dec =
        .error (.methodError (some (.str "serverFail"))
          (some (.str "Invalid response format")) none (some callId))) := by
  constructor
  · intro hfind
    simp only [extractMethodResponse, hfind]
    rfl
  · intro name result cid hfind hdec
    simp only [extractMethodResponse, hfind, hdec]
    rfl

/-- Witness for C2 (amended): a response holding only call id c9 makes
looking up c1 fail with a serverFail/not-found error; a present c1 whose
payload is not a string makes a string-shaped extraction fail with a
serverFail/invalid-format error. -/
theorem C2_extract_failure_kinds_witness :
    extractMethodResponse ⟨[("Email/get", Json.null, "c9")], none, "state-0"⟩
        "Email/get" "c1" some =
      .error (.methodError (some (.str "serverFail"))
        (some (.str ("Method response not found for " ++ "Email/get")))
        none (some "c1")) ∧
    extractMethodResponse ⟨[("Email/get", Json.null, "c1")], none, "state-0"⟩
        "Email/get" "c1" decodeStr =
      .error (.methodError (some (.str "serverFail"))
        (some (.str "Invalid response format")) none (some "c1")) :=
  ⟨(C2_extract_failure_kinds _ "Email/get" "c1" some).1 rfl,
   (C2_extract_failure_kinds _ "Email/get" "c1" decodeStr).2
     "Email/get" Json.null "c1" rfl rfl⟩

/-- C3 counterexample: a 200 reply whose body is
`{"methodResponses":[["error",null,"c1"]],"sessionState":"s1"}` decodes
(the payload slot is `Schema.Any`), but reading `error.type` off the null
payload (Errors.ts line 98, via the cast at JMAPClient.ts line 213)
throws a TypeError: the call dies as a defect that carries no call id,
not with a method error whose callId equals c1. -/
theorem C3_null_payload_defect_cex :
    batch exCfg2 exWorldErrNull [("Mailbox/get", Json.null, "c1")]
        defaultUsing exStCached =
      (.error .defect,
       afterExchange exStCached
         ⟨defaultUsing, [("Mailbox/get", Json.null, "c1")], none⟩) ∧
    JMAPErr.methodErrorCallId .defect = none ∧
    (none : Option String) ≠ some "c1" := ⟨rfl, rfl, by decide⟩

/-- C3 (amended): a decoded API reply whose `methodResponses` contains an
invocation named `"error"` with call id X (preceded only by non-error
invocations) makes `batch` fail, regardless of the other invocations:
with any non-null result payload it fails with the method error built
from that payload, whose callId is X; with a JSON-null payload the read
of its type field throws and the call dies as a defect carrying no call
id.  `batch` never returns a Response containing an `"error"`
invocation. -/
theorem C3_error_invocation_fails_batch :
    (∀ (cfg : JMAPClientConfig) (w : World) (mc : List Invocation)
       (u : List String) (st : ClientState) (b : Json) (r : Response)
       (pre post : List MethodResponse) (p : Json) (x : String),
      mc.length ≤ cfg.maxBatchSize.getD 50 →
      CacheFresh w st →
      w.attempts st.attemptIdx = .reply 200 (.json b) →
      decodeResponse b = some r →
      r.methodResponses = pre ++ ("error", p, x) :: post →
      (∀ mr ∈ pre, mr.1 ≠ "error") →
      batch cfg w mc u st =
        (.error (fromMethodError p (some x)),
         afterExchange st ⟨u, mc, none⟩) ∧
      (p ≠ .null → (fromMethodError p (some x)).methodErrorCallId = some x) ∧
      (p = .null → fromMethodError p (some x) = .defect ∧
        JMAPErr.methodErrorCallId .defect = none)) ∧
    (∀ (cfg : JMAPClientConfig) (w : World) (mc : List Invocation)
       (u : List String) (st : ClientState) (resp : Response)
       (st' : ClientState),
      batch cfg w mc u st = (.ok resp, st') →
      firstError resp.methodResponses = none) := by
  constructor
  · intro cfg w mc u st b r pre post p x hle hfresh hatt hdec hmr hclean
    have hfe : firstError r.methodResponses = some (p, x) := by
      rw [hmr]
      exact firstError_clean_prefix pre p x post hclean
    have hx := executeJMAPRequest_reply cfg w ⟨u, mc, none⟩ st 200 (.json b)
      hfresh hatt
    rw [parseJMAPReply_methodError b r p x hdec hfe] at hx
    refine ⟨?_, ?_, ?_⟩
    · simp only [batch, if_neg (Nat.not_lt.mpr hle), hx]
      simp
    · intro hnull
      cases p with
      | null => exact absurd rfl hnull
      | bool b2 => rfl
      | num n => rfl
      | str s2 => rfl
      | arr xs => rfl
      | obj fs => rfl
    · intro hnull
      subst hnull
      exact ⟨rfl, rfl⟩
  · intro cfg w mc u st resp st' h
    exact batch_ok_result cfg w mc u st resp st' h

/-- Witness for C3 (amended): the spec scenario — a 200 reply whose body
is `{"methodResponses":[["error",{"type":"accountNotFound"},"c1"]],
"sessionState":"s1"}` makes `batch` fail with that method error and
callId c1 — plus an evaluated successful run with no error invocation. -/
theorem C3_error_invocation_fails_batch_witness :
    (batch exCfg2 exWorldErr [("Mailbox/get", Json.null, "c1")] defaultUsing
        exStCached =
      (.error (fromMethodError (.obj [("type", .str "accountNotFound")])
        (some "c1")),
       afterExchange exStCached
         ⟨defaultUsing, [("Mailbox/get", Json.null, "c1")], none⟩) ∧
     ((Json.obj [("type", .str "accountNotFound")]) ≠ .null →
       (fromMethodError (.obj [("type", .str "accountNotFound")])
         (some "c1")).methodErrorCallId = some "c1") ∧
     ((Json.obj [("type", .str "accountNotFound")]) = .null →
       fromMethodError (.obj [("type", .str "accountNotFound")])
         (some "c1") = .defect ∧
       JMAPErr.methodErrorCallId .defect = none)) ∧
    firstError exResp0.methodResponses = none :=
  ⟨C3_error_invocation_fails_batch.1 exCfg2 exWorldErr
     [("Mailbox/get", Json.null, "c1")] defaultUsing exStCached exBodyErr
     exRespErr [] [] (.obj [("type", .str "accountNotFound")]) "c1"
     (by decide) ⟨⟨exSession, 0⟩, rfl, by decide⟩ rfl rfl rfl (by simp),
   C3_error_invocation_fails_batch.2 exCfg2 exWorldChunks
     [("A", Json.null, "1")] defaultUsing exStCached exResp0
     (afterExchange exStCached ⟨defaultUsing, [("A", Json.null, "1")], none⟩)
     rfl⟩

/-- C4 counterexample: the cache was filled at time 0 and now is exactly
five minutes (300000 ms) later, so the age is five minutes — not fresh by
the claimed strict bound — yet `getSession` serves the cached session and
issues no HTTP fetch (the state, including the request trace, is
unchanged). -/
theorem C4_freshness_boundary_cex :
    getSession exCfg2 ⟨fun _ => .transportError, 300000⟩ exStCached =
      (.ok exSession, exStCached) ∧
    (300000 : Nat) - 0 = 5 * 60 * 1000 ∧
    exStCached.trace = [] := ⟨rfl, by decide, rfl⟩

/-- C4 (amended): `getSession` serves the cached session without any HTTP
fetch iff the cache is present and `now - lastUpdated ≤ 5 minutes` (the
boundary age of exactly five minutes is still served); when the cache is
absent or strictly older it runs the fetch-and-cache cycle
(`fetchSession`), which always issues at least one HTTP request. -/
theorem C4_getSession_freshness (cfg : JMAPClientConfig) (w : World)
    (st : ClientState) :
    (st.sessionState = none → getSession cfg w st = fetchSession cfg w st) ∧
    (∀ ss, st.sessionState = some ss →
      (w.now ≤ ss.lastUpdated + 5 * 60 * 1000 →
        getSession cfg w st = (.ok ss.session, st)) ∧
      (ss.lastUpdated + 5 * 60 * 1000 < w.now →
        getSession cfg w st = fetchSession cfg w st)) ∧
    (∃ k, 0 < k ∧ (fetchSession cfg w st).2.trace =
      st.trace ++ List.replicate k TraceEntry.sessionGet) := by
  refine ⟨?_, ?_, fetchSession_trace cfg w st⟩
  · intro h
    simp [getSession, h]
  · intro ss hss
    constructor
    · intro hfr
      simp [getSession, hss, Nat.not_lt.mpr hfr]
    · intro hst
      simp [getSession, hss, hst]

/-- Witness for C4 (amended): empty cache defers to the fetch cycle; a
cache 1 second old is served; a cache 300001 ms old triggers the fetch
cycle. -/
theorem C4_getSession_freshness_witness :
    getSession exCfg2 ⟨fun _ => .transportError, 0⟩ exStEmpty =
      fetchSession exCfg2 ⟨fun _ => .transportError, 0⟩ exStEmpty ∧
    getSession exCfg2 ⟨fun _ => .transportError, 1000⟩ exStCached =
      (.ok exSession, exStCached) ∧
    getSession exCfg2 ⟨fun _ => .transportError, 300001⟩ exStCached =
      fetchSession exCfg2 ⟨fun _ => .transportError, 300001⟩ exStCached :=
  ⟨(C4_getSession_freshness exCfg2 ⟨fun _ => .transportError, 0⟩ exStEmpty).1
     rfl,
   ((C4_getSession_freshness exCfg2 ⟨fun _ => .transportError, 1000⟩
       exStCached).2.1 ⟨exSession, 0⟩ rfl).1 (by decide),
   ((C4_getSession_freshness exCfg2 ⟨fun _ => .transportError, 300001⟩
       exStCached).2.1 ⟨exSession, 0⟩ rfl).2 (by decide)⟩

/-- C5: a 401 reply from the API endpoint makes the dispatcher clear the
cached session and fail with an authentication error without a further
attempt (the trace grows by exactly the one POST), so any subsequent
`getSession` runs the fetch cycle instead of reusing the cache. -/
theorem C5_api_401_invalidates (cfg : JMAPClientConfig) (w : World)
    (req : Request) (st : ClientState) (ss : SessionState) (b : BodyOutcome)
    (hc : st.sessionState = some ss)
    (hf : ¬ (ss.lastUpdated + 5 * 60 * 1000 < w.now))
    (h401 : w.attempts st.attemptIdx = .reply 401 b) :
    executeJMAPRequest cfg w req st =
      (.error (.authentication "Bearer token expired or invalid"),
       { sessionState := none, attemptIdx := st.attemptIdx + 1,
         trace := st.trace ++ [.apiPost req] }) ∧
    (∀ w2, getSession cfg w2
        { sessionState := none, attemptIdx := st.attemptIdx + 1,
          trace := st.trace ++ [.apiPost req] } =
      fetchSession cfg w2
        { sessionState := none, attemptIdx := st.attemptIdx + 1,
          trace := st.trace ++ [.apiPost req] }) := by
  constructor
  · have hx := executeJMAPRequest_reply cfg w req st 401 b ⟨ss, hc, hf⟩ h401
    rw [hx]
    simp [parseJMAPReply, afterExchange]
  · intro w2
    simp [getSession]

/-- Witness for C5: a cached session, a 401 reply on the first POST. -/
theorem C5_api_401_invalidates_witness :
    executeJMAPRequest exCfg2 exWorld401
        ⟨defaultUsing, [("A", Json.null, "1")], none⟩ exStCached =
      (.error (.authentication "Bearer token expired or invalid"),
       { sessionState := none, attemptIdx := exStCached.attemptIdx + 1,
         trace := exStCached.trace ++
           [.apiPost ⟨defaultUsing, [("A", Json.null, "1")], none⟩] }) ∧
    (∀ w2, getSession exCfg2 w2
        { sessionState := none, attemptIdx := exStCached.attemptIdx + 1,
          trace := exStCached.trace ++
            [.apiPost ⟨defaultUsing, [("A", Json.null, "1")], none⟩] } =
      fetchSession exCfg2 w2
        { sessionState := none, attemptIdx := exStCached.attemptIdx + 1,
          trace := exStCached.trace ++
            [.apiPost ⟨defaultUsing, [("A", Json.null, "1")], none⟩] }) :=
  C5_api_401_invalidates exCfg2 exWorld401
    ⟨defaultUsing, [("A", Json.null, "1")], none⟩ exStCached
    ⟨exSession, 0⟩ (.json .null) rfl (by decide) rfl

/-- C6: when every chunk exchange of a chunked `batch` call succeeds, the
combined Response carries the sessionState of the last chunk response. -/
theorem C6_combined_sessionState (cfg : JMAPClientConfig) (w : World)
    (mc : List Invocation) (u : List String) (st : ClientState)
    (rs : List Response)
    (hlong : cfg.maxBatchSize.getD 50 < mc.length)
    (hfresh : CacheFresh w st)
    (hlen : rs.length = (chunksOf (cfg.maxBatchSize.getD 50) mc).length)
    (hserve : ∀ i (hi : i < rs.length),
      ServesOk w (st.attemptIdx + i) (rs.get ⟨i, hi⟩)) :
    ∀ (hne : rs ≠ []),
      (batch cfg w mc u st).1 =
        .ok ⟨(rs.map Response.methodResponses).flatten, none,
             (rs.getLast hne).sessionState⟩ := by
  intro hne
  rw [batch_chunked_ok cfg w mc u st rs hlong hfresh hlen hserve]
  simp [lastD_map_getLast Response.sessionState rs hne]

/-- Witness for C6: three chunk responses; the combined sessionState is
the third chunk response state. -/
theorem C6_combined_sessionState_witness :
    (batch exCfg2 exWorldChunks exCalls5 defaultUsing exStCached).1 =
      .ok ⟨([exResp0, exResp1, exResp2].map Response.methodResponses).flatten,
           none,
           (([exResp0, exResp1, exResp2]).getLast (by simp)).sessionState⟩ :=
  C6_combined_sessionState exCfg2 exWorldChunks exCalls5 defaultUsing
    exStCached [exResp0, exResp1, exResp2] (by decide)
    ⟨⟨exSession, 0⟩, rfl, by decide⟩ (by decide)
    (by
      intro i hi
      simp only [List.length_cons, List.length_nil] at hi
      interval_cases i
      · exact ⟨exBody0, rfl, rfl, rfl⟩
      · exact ⟨exBody1, rfl, rfl, rfl⟩
      · exact ⟨exBody2, rfl, rfl, rfl⟩)
    (by simp)

/-- C7: a 401 reply to the session fetch makes `getSession` fail with an
authentication error after exactly one HTTP attempt (no retry), and the
cache is left exactly as before — an empty cache stays empty; more
generally the cache is only written after a fully successful fetch: every
failing `fetchSession` leaves it unchanged. -/
theorem C7_session_401_no_cache_write (cfg : JMAPClientConfig) (w : World)
    (st : ClientState) (b : BodyOutcome) :
    (st.sessionState = none →
      w.attempts st.attemptIdx = .reply 401 b →
      getSession cfg w st =
        (.error (.authentication "Invalid bearer token"),
         { sessionState := none, attemptIdx := st.attemptIdx + 1,
           trace := st.trace ++ [.sessionGet] })) ∧
    (∀ e st', fetchSession cfg w st = (.error e, st') →
      st'.sessionState = st.sessionState) := by
  constructor
  · intro hc h401
    have hr := runAttempts_reply w .sessionGet (cfg.maxRetries.getD 3) st 401
      b h401
    simp [getSession, hc, fetchSession, hr, parseSessionReply]
  · intro e st' h
    exact fetchSession_error_cache cfg w st e st' h

/-- Witness for C7: the session endpoint answers 401; with an empty cache
`getSession` fails with the authentication error after one attempt, and a
failing fetch against a filled cache leaves that cache in place. -/
theorem C7_session_401_no_cache_write_witness :
    getSession exCfg2 exWorld401 exStEmpty =
      (.error (.authentication "Invalid bearer token"),
       { sessionState := none, attemptIdx := exStEmpty.attemptIdx + 1,
         trace := exStEmpty.trace ++ [.sessionGet] }) ∧
    (ClientState.mk (some ⟨exSession, 0⟩) 1 [.sessionGet]).sessionState =
      exStCached.sessionState :=
  ⟨(C7_session_401_no_cache_write exCfg2 exWorld401 exStEmpty
      (.json .null)).1 rfl rfl,
   (C7_session_401_no_cache_write exCfg2 exWorld401 exStCached
      (.json .null)).2 (.authentication "Invalid bearer token")
     ⟨some ⟨exSession, 0⟩, 1, [.sessionGet]⟩ rfl⟩

/-- C8: a session fetch answered 200 with a body that is not parseable
JSON fails with a network error, while a 200 body that is valid JSON but
fails Session shape validation fails with a session error — two distinct
error kinds. -/
theorem C8_session_parse_vs_validate (cfg : JMAPClientConfig) (w : World)
    (st : ClientState) :
    (w.attempts st.attemptIdx = .reply 200 .invalidJson →
      fetchSession cfg w st =
        (.error (.network "Invalid JSON response" true none),
         { st with attemptIdx := st.attemptIdx + 1,
                   trace := st.trace ++ [.sessionGet] })) ∧
    (∀ j, w.attempts st.attemptIdx = .reply 200 (.json j) →
      decodeSession j = none →
      fetchSession cfg w st =
        (.error (.sessionError "Invalid session response format"),
         { st with attemptIdx := st.attemptIdx + 1,
                   trace := st.trace ++ [.sessionGet] })) := by
  constructor
  · intro h
    have hr := runAttempts_reply w .sessionGet (cfg.maxRetries.getD 3) st 200
      .invalidJson h
    simp [fetchSession, hr, parseSessionReply]
  · intro j h hdec
    have hr := runAttempts_reply w .sessionGet (cfg.maxRetries.getD 3) st 200
      (.json j) h
    simp [fetchSession, hr, parseSessionReply, hdec]

/-- Witness for C8: an unparsable 200 body yields the network error; the
spec scenario body missing `apiUrl` yields the session error. -/
theorem C8_session_parse_vs_validate_witness :
    fetchSession exCfg2 exWorldBadJson exStEmpty =
      (.error (.network "Invalid JSON response" true none),
       { exStEmpty with attemptIdx := exStEmpty.attemptIdx + 1,
                        trace := exStEmpty.trace ++ [.sessionGet] }) ∧
    fetchSession exCfg2 exWorldNoApi exStEmpty =
      (.error (.sessionError "Invalid session response format"),
       { exStEmpty with attemptIdx := exStEmpty.attemptIdx + 1,
                        trace := exStEmpty.trace ++ [.sessionGet] }) :=
  ⟨(C8_session_parse_vs_validate exCfg2 exWorldBadJson exStEmpty).1 rfl,
   (C8_session_parse_vs_validate exCfg2 exWorldNoApi exStEmpty).2
     exBodyNoApi rfl rfl⟩

/-- C9: when chunk j of a chunked `batch` call receives a reply that the
exchange pipeline rejects with error e (after the first j chunks
succeeded), `batch` fails with exactly e, the trace shows POSTs for
chunks 0..j only (no subsequent chunk is attempted), and no partial
result is returned. -/
theorem C9_chunk_failure_aborts (cfg : JMAPClientConfig) (w : World)
    (mc : List Invocation) (u : List String) (st : ClientState)
    (rs : List Response) (j : Nat) (s : Nat) (b : BodyOutcome) (e : JMAPErr)
    (hlong : cfg.maxBatchSize.getD 50 < mc.length)
    (hfresh : CacheFresh w st)
    (hj : j < (chunksOf (cfg.maxBatchSize.getD 50) mc).length)
    (hlen : rs.length = j)
    (hserve : ∀ i (hi : i < rs.length),
      ServesOk w (st.attemptIdx + i) (rs.get ⟨i, hi⟩))
    (hatt : w.attempts (st.attemptIdx + j) = .reply s b)
    (herr : parseJMAPReply s b = .error e) :
    batch cfg w mc u st =
      (.error e,
       { sessionState := if s = 401 then none else st.sessionState,
         attemptIdx := st.attemptIdx + j + 1,
         trace := st.trace ++
           ((chunksOf (cfg.maxBatchSize.getD 50) mc).take (j + 1)).map
             (fun c => TraceEntry.apiPost ⟨u, c, none⟩) }) := by
  have hrc := runChunks_fail cfg w u (chunksOf (cfg.maxBatchSize.getD 50) mc)
    rs j [] "" st s b e hfresh hlen hj hserve hatt herr
  simp only [batch, if_pos hlong, hrc]

/-- Witness for C9: `maxBatchSize = 2`, five calls; chunk 0 succeeds and
chunk 1 receives HTTP 503, so `batch` fails with the 503 network error
after issuing only the first two of the three chunk POSTs. -/
theorem C9_chunk_failure_aborts_witness :
    batch exCfg2 exWorldFail exCalls5 defaultUsing exStCached =
      (.error (.network "HTTP 503" false (some 503)),
       { sessionState := if 503 = 401 then none else exStCached.sessionState,
         attemptIdx := exStCached.attemptIdx + 1 + 1,
         trace := exStCached.trace ++
           ((chunksOf (exCfg2.maxBatchSize.getD 50) exCalls5).take (1 + 1)).map
             (fun c => TraceEntry.apiPost ⟨defaultUsing, c, none⟩) }) :=
  C9_chunk_failure_aborts exCfg2 exWorldFail exCalls5 defaultUsing exStCached
    [exResp0] 1 503 .unreadable (.network "HTTP 503" false (some 503))
    (by decide) ⟨⟨exSession, 0⟩, rfl, by decide⟩ (by decide) rfl
    (by
      intro i hi
      simp only [List.length_cons, List.length_nil] at hi
      interval_cases i
      exact ⟨exBody0, rfl, rfl, rfl⟩)
    rfl rfl

/-- C10: the combined Response synthesized by the chunked path carries no
createdIds map (even when the individual chunk responses do), while the
non-chunked path (length at most maxBatchSize) returns the decoded server
envelope unmodified, its createdIds included. -/
theorem C10_createdIds_dropped_when_chunked (cfg : JMAPClientConfig)
    (w : World) (st : ClientState) (hfresh : CacheFresh w st) :
    (∀ (mc : List Invocation) (u : List String) (rs : List Response),
      cfg.maxBatchSize.getD 50 < mc.length →
      rs.length = (chunksOf (cfg.maxBatchSize.getD 50) mc).length →
      (∀ i (hi : i < rs.length),
        ServesOk w (st.attemptIdx + i) (rs.get ⟨i, hi⟩)) →
      (batch cfg w mc u st).1 =
        .ok ⟨(rs.map Response.methodResponses).flatten, none,
             lastD (rs.map Response.sessionState) ""⟩) ∧
    (∀ (mc : List Invocation) (u : List String) (r : Response),
      mc.length ≤ cfg.maxBatchSize.getD 50 →
      ServesOk w st.attemptIdx r →
      batch cfg w mc u st = (.ok r, afterExchange st ⟨u, mc, none⟩)) := by
  constructor
  · intro mc u rs hlong hlen hserve
    rw [batch_chunked_ok cfg w mc u st rs hlong hfresh hlen hserve]
  · intro mc u r hle hserve
    have hx := executeJMAPRequest_ok cfg w ⟨u, mc, none⟩ st r hfresh hserve
    simp only [batch, if_neg (Nat.not_lt.mpr hle)]
    exact hx

/-- Witness for C10: the second chunk response carries a createdIds map
yet the combined Response has none; a single-exchange batch returns the
full envelope with its createdIds map intact. -/
theorem C10_createdIds_dropped_when_chunked_witness :
    (batch exCfg2 exWorldChunks exCalls5 defaultUsing exStCached).1 =
      .ok ⟨([exResp0, exResp1, exResp2].map Response.methodResponses).flatten,
           none,
           lastD ([exResp0, exResp1, exResp2].map Response.sessionState) ""⟩ ∧
    batch exCfg2 exWorldSingle [("A", Json.null, "1")] defaultUsing
        exStCached =
      (.ok exRespSingle,
       afterExchange exStCached
         ⟨defaultUsing, [("A", Json.null, "1")], none⟩) :=
  ⟨(C10_createdIds_dropped_when_chunked exCfg2 exWorldChunks exStCached
      ⟨⟨exSession, 0⟩, rfl, by decide⟩).1 exCalls5 defaultUsing
     [exResp0, exResp1, exResp2] (by decide) (by decide)
     (by
       intro i hi
       simp only [List.length_cons, List.length_nil] at hi
       interval_cases i
       · exact ⟨exBody0, rfl, rfl, rfl⟩
       · exact ⟨exBody1, rfl, rfl, rfl⟩
       · exact ⟨exBody2, rfl, rfl, rfl⟩),
   (C10_createdIds_dropped_when_chunked exCfg2 exWorldSingle exStCached
      ⟨⟨exSession, 0⟩, rfl, by decide⟩).2 [("A", Json.null, "1")]
     defaultUsing exRespSingle (by decide) ⟨exBodySingle, rfl, rfl, rfl⟩⟩

end JMAP
